import Mathlib

/-
Verification development for the margin note-taking application
(src/src-tauri/src): a shallow embedding of its search, sanitization,
frecency-ranking, corrections-store, backfill and schema-migration code,
with theorems checking the specification's claims against it.

Modelling conventions:
- SQLite tables are lists of typed rows; SQL statements become list
  operations translated clause by clause from the SQL text in the source.
- SQLite REAL arithmetic is modelled over ℚ (floating-point rounding is
  not modelled; the ranking claims concern the formula, not rounding).
- Character classes (alphanumeric, whitespace, upper-casing) use Lean's
  Char primitives, which agree with Rust's on ASCII; the claims under
  study only involve ASCII inputs.
- Environment effects (UUID generation, clock, filesystem) are threaded
  as explicit inputs: UUIDs become distinct counter-derived strings (no
  claim depends on id values), the clock is a parameter, a directory is
  an optional list of files, a file an optional list of lines (`none`
  marks a nonexistent directory / unreadable file, the cases the source
  branches on).
-/

namespace Margin

/-! ### Generic stable insertion sort

SQLite's ORDER BY and Rust's `sort` only fix the order up to ties; the
model realizes them with a deterministic stable insertion sort. -/

def insertSorted (le : α → α → Bool) (x : α) : List α → List α
  | [] => [x]
  | y :: ys => if le x y then x :: y :: ys else y :: insertSorted le x ys

def stableSortBy (le : α → α → Bool) (l : List α) : List α :=
  l.foldr (insertSorted le) []

/-- Byte-wise lexicographic comparison of strings, as Rust's `Ord` on
`PathBuf`/`str` compares the paths sorted by `paths.sort()`. -/
def strLeB (a b : String) : Bool :=
  go a.data b.data
where
  go : List Char → List Char → Bool
    | [], _ => true
    | _ :: _, [] => false
    | x :: xs, y :: ys =>
      if x.val < y.val then true
      else if y.val < x.val then false
      else go xs ys

/-! ### Full-text index model (src/commands/search.rs)

The FTS5 virtual table `documents_fts` is modelled as a list of entries;
`ensure_fts_table` (CREATE VIRTUAL TABLE IF NOT EXISTS) is the identity
on an existing table and is absorbed into the state type. -/

structure FtsEntry where
  document_id : String
  title : String
  content : String
deriving DecidableEq

/-- `index_document_inner` (search.rs lines 136-152): DELETE FROM
documents_fts WHERE document_id = ?1, then INSERT the fresh entry. -/
def index_document_inner (fts : List FtsEntry) (document_id title content : String) :
    List FtsEntry :=
  (fts.filter (fun e => !(e.document_id == document_id))) ++
    [{ document_id := document_id, title := title, content := content }]

/-- `remove_document_index_inner` (search.rs lines 197-207): DELETE FROM
documents_fts WHERE document_id = ?1; deleting zero rows is not an error. -/
def remove_document_index_inner (fts : List FtsEntry) (document_id : String) :
    List FtsEntry :=
  fts.filter (fun e => !(e.document_id == document_id))

/-! ### Query sanitizer (search.rs `sanitize_fts_query`, lines 89-132)

String manipulation is modelled over the underlying character lists with
structural recursion (Lean's own `String.trim` and `String.split` do not
evaluate inside the kernel). -/

/-- `str::trim`: drop leading and trailing whitespace. -/
def trimChars (cs : List Char) : List Char :=
  ((cs.dropWhile Char.isWhitespace).reverse.dropWhile Char.isWhitespace).reverse

/-- The characters removed up front by the chain of `.replace(c, "")`
calls: double quote, apostrophe, parentheses, braces, colon, caret.
Removing each character globally is the same as filtering them all out. -/
def isFtsSpecialChar (c : Char) : Bool :=
  c == Char.ofNat 34 || c == Char.ofNat 39 || c == Char.ofNat 40 ||
  c == Char.ofNat 41 || c == Char.ofNat 123 || c == Char.ofNat 125 ||
  c == Char.ofNat 58 || c == Char.ofNat 94

/-- Rust `split_whitespace`: maximal whitespace-free runs, no empty
pieces. The accumulator carries the current word in reverse. -/
def splitWsAux : List Char → List Char → List String
  | [], [] => []
  | [], acc => [String.mk acc.reverse]
  | c :: cs, acc =>
    if c.isWhitespace then
      match acc with
      | [] => splitWsAux cs []
      | _ => String.mk acc.reverse :: splitWsAux cs []
    else splitWsAux cs (c :: acc)

def splitTerms (cs : List Char) : List String :=
  splitWsAux cs []

def upperString (w : String) : String :=
  String.mk (w.data.map Char.toUpper)

/-- The boolean-operator keyword filter: `word.to_uppercase()` compared
against AND / OR / NOT / NEAR. -/
def isFtsKeyword (w : String) : Bool :=
  let upper := upperString w
  upper == "AND" || upper == "OR" || upper == "NOT" || upper == "NEAR"

def keepTermChar (c : Char) : Bool :=
  c.isAlphanum || c == Char.ofNat 45 || c == Char.ofNat 95

/-- The per-term map: keep only alphanumeric / hyphen / underscore
characters; if nothing survives produce the empty string, otherwise wrap
in double quotes and append `*`. -/
def wrapTerm (w : String) : String :=
  let cleaned := w.data.filter keepTermChar
  if cleaned.isEmpty then "" else "\"" ++ String.mk cleaned ++ "\"*"

/-- The post-split pipeline of `sanitize_fts_query`: drop operator
keywords, drop terms with no alphanumeric character, wrap the survivors,
drop terms that became empty. -/
def sanitizeTerms (ts : List String) : List String :=
  (((ts.filter (fun w => !(isFtsKeyword w))).filter
      (fun w => w.data.any Char.isAlphanum)).map wrapTerm).filter
    (fun s => !s.isEmpty)

/-- `terms.join(" ")`. -/
def joinSpace : List String → String
  | [] => ""
  | [x] => x
  | x :: xs => x ++ " " ++ joinSpace xs

/-- `sanitize_fts_query` (search.rs lines 89-132). -/
def sanitize_fts_query (query : String) : String :=
  let trimmed := trimChars query.data
  if trimmed.isEmpty then ""
  else joinSpace (sanitizeTerms (splitTerms (trimmed.filter (fun c => !(isFtsSpecialChar c)))))

/-! ### Frecency scoring and search (search.rs `search_documents_inner`,
lines 154-195)

The ORDER BY expression of the search query is

  bm25(documents_fts, 10.0, 1.0)
    - (COALESCE(d.access_count, 0) * 1.0 /
       (1.0 + MAX(0, julianday('now')
                     - julianday(datetime(COALESCE(d.last_opened_at, 0) / 1000,
                                          'unixepoch'))) * 0.1)) * 0.3

The FTS engine's side (which rows MATCH the query and their bm25 values
with field weights 10.0 / 1.0, and the snippet text) is the input
boundary: each matched row arrives with its engine-computed `bm25` value
and snippet.  `julianday('now')` is the parameter `nowJD`.  SQLite's
`x / 1000` on INTEGER columns truncates toward zero (`Int.tdiv`), and
`datetime(secs,'unixepoch')` has whole-second resolution. -/

/-- Julian-day value of a unix-millisecond timestamp as SQLite computes
`julianday(datetime(ms / 1000, 'unixepoch'))`: the unix epoch is julian
day 2440587.5 and a day is 86400 seconds. -/
def julianOfMs (ms : Int) : ℚ :=
  (4881175 : ℚ) / 2 + ((Int.tdiv ms 1000 : Int) : ℚ) / 86400

/-- SQLite's two-argument MAX on REALs (written with its defining
if-then-else so that concrete values evaluate inside the kernel). -/
def ratMax (a b : ℚ) : ℚ :=
  if a ≤ b then b else a

/-- `MAX(0, julianday('now') - julianday(datetime(..)))`. -/
def daysOld (nowJD : ℚ) (last_opened_at : Option Int) : ℚ :=
  ratMax 0 (nowJD - julianOfMs (last_opened_at.getD 0))

/-- The frecency bonus subtracted from the base rank:
`COALESCE(access_count, 0) / (1 + days * 0.1) * 0.3`. -/
def frecencyBonus (nowJD : ℚ) (access_count : Option Int) (last_opened_at : Option Int) : ℚ :=
  ((access_count.getD 0 : Int) : ℚ) /
    (1 + daysOld nowJD last_opened_at * (1 / 10)) * (3 / 10)

/-- The composite ORDER BY key: base bm25 rank minus the frecency bonus
(lower is better in the bm25 convention). -/
def compositeScore (nowJD : ℚ) (bm25 : ℚ) (access_count last_opened_at : Option Int) : ℚ :=
  bm25 - frecencyBonus nowJD access_count last_opened_at

/-- One row of `documents_fts MATCH ?1` LEFT JOINed with `documents`:
`bm25` is the engine's `bm25(documents_fts, 10.0, 1.0)` value for the
row, `snippet` the engine's snippet; `access_count` / `last_opened_at`
are NULL (`none`) when the document row is absent or the column is NULL. -/
structure FtsMatchRow where
  document_id : String
  title : String
  snippet : String
  bm25 : ℚ
  access_count : Option Int
  last_opened_at : Option Int
deriving DecidableEq

def rowScore (nowJD : ℚ) (r : FtsMatchRow) : ℚ :=
  compositeScore nowJD r.bm25 r.access_count r.last_opened_at

/-- The `SearchResult` struct (search.rs lines 5-12): `rank` is read from
the SELECTed `bm25(documents_fts, 10.0, 1.0)` column. -/
structure SearchResult where
  document_id : String
  title : String
  snippet : String
  rank : ℚ
deriving DecidableEq

def toSearchResult (r : FtsMatchRow) : SearchResult :=
  { document_id := r.document_id, title := r.title, snippet := r.snippet
    rank := r.bm25 }

/-- `search_documents_inner` (search.rs lines 154-195): sanitize the
query; an empty expression returns no results; otherwise order the
matched rows by the composite score ascending, apply LIMIT, and report
each row's raw bm25 value as `rank`. -/
def search_documents_inner (nowJD : ℚ) (rows : List FtsMatchRow)
    (query : String) (limit : Nat) : List SearchResult :=
  if sanitize_fts_query query = "" then []
  else
    ((stableSortBy (fun a b => decide (rowScore nowJD a ≤ rowScore nowJD b)) rows).take
        limit).map toSearchResult

/-! ### Corrections store (src/commands/corrections.rs, db/migrations.rs)

One row of the `corrections` table, in the post-migration shape (with the
nullable `writing_type` column). -/

structure CorrectionRow where
  id : String
  highlight_id : String
  document_id : String
  session_id : String
  original_text : String
  prefix_context : Option String
  suffix_context : Option String
  extended_context : Option String
  notes_json : String
  document_title : Option String
  document_source : String
  document_path : Option String
  category : Option String
  highlight_color : String
  created_at : Int
  updated_at : Int
  writing_type : Option String
deriving DecidableEq

/-- The backfill sentinel row exactly as inserted by
`migrate_corrections_drop_fks` (migrations.rs lines 199-206); columns not
named in the INSERT are NULL. -/
def sentinelRow : CorrectionRow :=
  { id := "__backfill_marker__", highlight_id := "__backfill_marker__"
    document_id := "", session_id := "__backfilled__", original_text := ""
    prefix_context := none, suffix_context := none, extended_context := none
    notes_json := "[]", document_title := none, document_source := "system"
    document_path := none, category := none, highlight_color := "none"
    created_at := 0, updated_at := 0, writing_type := none }

/-! #### Decoding `notes_json`

`serde_json::from_str::<Vec<String>>(..).unwrap_or_default()`: parse the
stored text as a JSON array of strings, yielding `[]` on any failure.
Modelled by a small recursive-descent parser (the `\uXXXX` escape form is
not modelled; no claim involves it). -/

def skipWs : List Char → List Char
  | [] => []
  | c :: cs => if c.isWhitespace then skipWs cs else c :: cs

def unescapeChar (c : Char) : Char :=
  if c == Char.ofNat 110 then Char.ofNat 10
  else if c == Char.ofNat 116 then Char.ofNat 9
  else if c == Char.ofNat 114 then Char.ofNat 13
  else c

/-- Consume a JSON string body up to its closing quote, returning the
decoded content and the remaining input. -/
def takeJsonString (fuel : Nat) (cs : List Char) : Option (String × List Char) :=
  match fuel, cs with
  | 0, _ => none
  | _, [] => none
  | fuel + 1, c :: rest =>
    if c == Char.ofNat 34 then some ("", rest)
    else if c == Char.ofNat 92 then
      match rest with
      | [] => none
      | e :: rest2 =>
        match takeJsonString fuel rest2 with
        | none => none
        | some (s, r) => some (String.mk (unescapeChar e :: s.data), r)
    else
      match takeJsonString fuel rest with
      | none => none
      | some (s, r) => some (String.mk (c :: s.data), r)

/-- Parse the elements of a JSON string array after the opening bracket
(or after a separating comma): a quoted string, then either `,` and more
elements or the closing `]` which must end the input. -/
def parseElems (fuel : Nat) (cs : List Char) (acc : List String) : Option (List String) :=
  match fuel with
  | 0 => none
  | fuel + 1 =>
    match skipWs cs with
    | [] => none
    | c :: rest =>
      if c == Char.ofNat 34 then
        match takeJsonString (rest.length + 1) rest with
        | none => none
        | some (s, r) =>
          match skipWs r with
          | [] => none
          | d :: r2 =>
            if d == ',' then parseElems fuel r2 (acc ++ [s])
            else if d == ']' then
              if skipWs r2 = [] then some (acc ++ [s]) else none
            else none
      else none

def decodeStringArray (s : String) : List String :=
  (match skipWs s.data with
   | c :: rest =>
     if c == '[' then
       match skipWs rest with
       | d :: r2 =>
         if d == ']' then (if skipWs r2 = [] then some [] else none)
         else parseElems (rest.length + 1) rest []
       | [] => none
     else none
   | [] => none).getD []

/-- `serde_json::to_string` of a `Vec<String>` (quote-free strings; the
claims' inputs contain no characters serde would escape). -/
def serializeStringList (xs : List String) : String :=
  "[" ++ String.intercalate "," (xs.map (fun s => "\"" ++ s ++ "\"")) ++ "]"

/-! #### Read and export queries over corrections -/

def sortByCreatedDesc (rows : List CorrectionRow) : List CorrectionRow :=
  stableSortBy (fun a b => decide (b.created_at ≤ a.created_at)) rows

/-- The `CorrectionRecord` returned by `get_all_corrections`
(corrections.rs lines 11-19). -/
structure CorrectionRecord where
  original_text : String
  notes : List String
  highlight_color : String
  document_title : Option String
  document_id : String
  created_at : Int
  writing_type : Option String
deriving DecidableEq

def toCorrectionRecord (r : CorrectionRow) : CorrectionRecord :=
  { original_text := r.original_text, notes := decodeStringArray r.notes_json
    highlight_color := r.highlight_color, document_title := r.document_title
    document_id := r.document_id, created_at := r.created_at
    writing_type := r.writing_type }

/-- `fetch_corrections` (corrections.rs lines 66-101):
SELECT .. FROM corrections ORDER BY created_at DESC LIMIT ?1 — note the
absence of any WHERE clause on `session_id`. -/
def fetch_corrections (db : List CorrectionRow) (limit : Nat) : List CorrectionRecord :=
  ((sortByCreatedDesc db).take limit).map toCorrectionRecord

/-- `count_corrections` (corrections.rs lines 103-105):
SELECT COUNT(*) FROM corrections — again with no WHERE clause. -/
def count_corrections (db : List CorrectionRow) : Nat :=
  db.length

/-- `CorrectionDetail` (corrections.rs lines 30-41). -/
structure CorrectionDetail where
  highlight_id : String
  original_text : String
  notes : List String
  extended_context : Option String
  highlight_color : String
  writing_type : Option String
  document_title : Option String
  created_at : Int
deriving DecidableEq

structure DocumentCorrections where
  document_id : String
  document_title : Option String
  document_path : Option String
  corrections : List CorrectionDetail
deriving DecidableEq

def toCorrectionDetail (r : CorrectionRow) : CorrectionDetail :=
  { highlight_id := r.highlight_id, original_text := r.original_text
    notes := decodeStringArray r.notes_json, extended_context := r.extended_context
    highlight_color := r.highlight_color, writing_type := r.writing_type
    document_title := r.document_title, created_at := r.created_at }

/-- The grouping loop of `fetch_corrections_by_document`: a row joins the
group of its `document_id` if one exists (the first row of a group fixes
the group's title/path), otherwise it opens a new group at the end. -/
def addDetailToGroups (groups : List DocumentCorrections) (r : CorrectionRow) :
    List DocumentCorrections :=
  if groups.any (fun g => g.document_id == r.document_id) then
    groups.map (fun g =>
      if g.document_id == r.document_id then
        { g with corrections := g.corrections ++ [toCorrectionDetail r] }
      else g)
  else
    groups ++ [{ document_id := r.document_id, document_title := r.document_title
                 document_path := r.document_path
                 corrections := [toCorrectionDetail r] }]

/-- `fetch_corrections_by_document` (corrections.rs lines 237-292):
SELECT .. FROM corrections WHERE session_id != '__backfilled__'
ORDER BY created_at DESC LIMIT ?1, then group rows by document. -/
def fetch_corrections_by_document (db : List CorrectionRow) (limit : Nat) :
    List DocumentCorrections :=
  (((sortByCreatedDesc (db.filter (fun r => !(r.session_id == "__backfilled__")))).take
      limit)).foldl addDetailToGroups []

/-- `ExportedCorrection` (corrections.rs lines 328-338). -/
structure ExportedCorrection where
  original_text : String
  notes : List String
  extended_context : Option String
  writing_type : Option String
  document_title : Option String
  highlight_color : String
  created_at : Int
deriving DecidableEq

def toExportedCorrection (r : CorrectionRow) : ExportedCorrection :=
  { original_text := r.original_text, notes := decodeStringArray r.notes_json
    extended_context := r.extended_context, writing_type := r.writing_type
    document_title := r.document_title, highlight_color := r.highlight_color
    created_at := r.created_at }

/-- `CorrectionsExport` without its `exported_at` wall-clock timestamp
(an environment input that no claim concerns). -/
structure CorrectionsExport where
  total_count : Nat
  corrections : List ExportedCorrection
deriving DecidableEq

/-- `build_corrections_export` (corrections.rs lines 340-401):
SELECT .. FROM corrections WHERE session_id != '__backfilled__'
ORDER BY created_at DESC, with `total_count` the number of exported rows. -/
def build_corrections_export (db : List CorrectionRow) : CorrectionsExport :=
  let cs := (sortByCreatedDesc (db.filter (fun r => !(r.session_id == "__backfilled__")))).map
    toExportedCorrection
  { total_count := cs.length, corrections := cs }

/-! ### Upsert of `persist_corrections` (corrections.rs lines 121-235)

`CorrectionInput` is declared in repository code outside src/; its field
set and types are fully determined by its uses in `persist_corrections`
(`input.highlight_id`, `input.original_text`, the three context fields
bound to nullable columns, `input.notes` serialized with serde_json,
`input.highlight_color`, and `input.writing_type` bound to the nullable
`writing_type` column through COALESCE). -/

structure CorrectionInput where
  highlight_id : String
  original_text : String
  prefix_context : Option String
  suffix_context : Option String
  extended_context : Option String
  notes : List String
  highlight_color : String
  writing_type : Option String
deriving DecidableEq

/-- One iteration of the INSERT .. ON CONFLICT(highlight_id) DO UPDATE
statement of `persist_corrections` (corrections.rs lines 161-201): on
conflict every listed column takes the excluded (incoming) value except
`writing_type = COALESCE(excluded.writing_type, corrections.writing_type)`;
`id`, `document_id`, `category` and `created_at` are not in the UPDATE
list and keep their stored values. -/
def persist_correction_upsert (db : List CorrectionRow) (new_id : String)
    (input : CorrectionInput) (document_id : String) (session_id : String)
    (document_title : Option String) (document_source : String)
    (document_path : Option String) (now : Int) : List CorrectionRow :=
  if db.any (fun r => r.highlight_id == input.highlight_id) then
    db.map (fun r =>
      if r.highlight_id == input.highlight_id then
        { r with
          session_id := session_id
          original_text := input.original_text
          prefix_context := input.prefix_context
          suffix_context := input.suffix_context
          extended_context := input.extended_context
          notes_json := serializeStringList input.notes
          document_title := document_title
          document_source := document_source
          document_path := document_path
          highlight_color := input.highlight_color
          updated_at := now
          writing_type :=
            match input.writing_type with
            | some w => some w
            | none => r.writing_type }
      else r)
  else
    db ++ [{ id := new_id, highlight_id := input.highlight_id
             document_id := document_id, session_id := session_id
             original_text := input.original_text
             prefix_context := input.prefix_context
             suffix_context := input.suffix_context
             extended_context := input.extended_context
             notes_json := serializeStringList input.notes
             document_title := document_title
             document_source := document_source
             document_path := document_path
             category := none
             highlight_color := input.highlight_color
             created_at := now, updated_at := now
             writing_type := input.writing_type }]

/-! ### Append-log JSON values (backfill input)

`serde_json::Value`, restricted to what `backfill_corrections_from_dir`
inspects: indexing a string key (Null on non-objects and absent keys),
`as_str`, `as_i64`, and re-serialization of the `notes` field. -/

inductive Json where
  | null : Json
  | bool (b : Bool) : Json
  | num (n : Int) : Json
  | str (s : String) : Json
  | arr (xs : List Json) : Json
  | obj (fields : List (String × Json)) : Json

def Json.get (v : Json) (key : String) : Json :=
  match v with
  | .obj fields =>
    match fields.find? (fun p => p.1 == key) with
    | some p => p.2
    | none => .null
  | _ => .null

def Json.asStr : Json → Option String
  | .str s => some s
  | _ => none

def Json.asInt : Json → Option Int
  | .num n => some n
  | _ => none

mutual

/-- `serde_json::to_string` (string escaping not modelled; the claims'
inputs contain no characters serde would escape). -/
def Json.serialize : Json → String
  | .null => "null"
  | .bool true => "true"
  | .bool false => "false"
  | .num n => toString n
  | .str s => "\"" ++ s ++ "\""
  | .arr xs => "[" ++ Json.serializeList xs ++ "]"
  | .obj fields => "\x7b" ++ Json.serializeFields fields ++ "\x7d"

def Json.serializeList : List Json → String
  | [] => ""
  | [x] => Json.serialize x
  | x :: xs => Json.serialize x ++ "," ++ Json.serializeList xs

def Json.serializeFields : List (String × Json) → String
  | [] => ""
  | [(k, v)] => "\"" ++ k ++ "\":" ++ Json.serialize v
  | (k, v) :: fs => "\"" ++ k ++ "\":" ++ Json.serialize v ++ "," ++ Json.serializeFields fs

end

/-! ### Backfill importer (migrations.rs `backfill_corrections_from_dir`,
lines 217-294, and its gate in `migrate_corrections_drop_fks`,
lines 183-209) -/

/-- The row a valid JSONL line inserts (migrations.rs lines 256-286);
`id` is a fresh UUID (modelled as a counter-derived string), the
`writing_type` column is not named in the INSERT and stays NULL. -/
def rowFromJson (id : String) (v : Json) (highlight_id : String) : CorrectionRow :=
  { id := id
    highlight_id := highlight_id
    document_id := ((v.get "document_id").asStr).getD ""
    session_id := ((v.get "session_id").asStr).getD ""
    original_text := ((v.get "original_text").asStr).getD ""
    prefix_context := (v.get "prefix_context").asStr
    suffix_context := (v.get "suffix_context").asStr
    extended_context := (v.get "extended_context").asStr
    notes_json := (v.get "notes").serialize
    document_title := (v.get "document_title").asStr
    document_source := ((v.get "document_source").asStr).getD "unknown"
    document_path := (v.get "document_path").asStr
    category := none
    highlight_color := ((v.get "highlight_color").asStr).getD "yellow"
    created_at := ((v.get "exported_at").asInt).getD 0
    updated_at := ((v.get "exported_at").asInt).getD 0
    writing_type := none }

/-- The backfill INSERT .. ON CONFLICT(highlight_id) DO UPDATE
(migrations.rs lines 256-268): on conflict only `original_text`,
`notes_json`, `document_title`, `highlight_color` and `updated_at` take
the excluded values; all other columns keep their stored values. -/
def backfill_upsert (db : List CorrectionRow) (row : CorrectionRow) : List CorrectionRow :=
  if db.any (fun r => r.highlight_id == row.highlight_id) then
    db.map (fun r =>
      if r.highlight_id == row.highlight_id then
        { r with
          original_text := row.original_text
          notes_json := row.notes_json
          document_title := row.document_title
          highlight_color := row.highlight_color
          updated_at := row.updated_at }
      else r)
  else db ++ [row]

/-- One line of a JSONL log file, at the parse boundary the source
branches on: a line whose read failed (`Err` from `reader.lines()`), a
line that trims to empty, a line serde_json fails to parse, or a parsed
JSON value. -/
inductive LogLine where
  | readFail : LogLine
  | empty : LogLine
  | parseFail : LogLine
  | json (v : Json) : LogLine

/-- A file in the corrections directory: its name and its lines, or
`none` when `fs::File::open` fails (unreadable file). -/
structure LogFile where
  name : String
  content : Option (List LogLine)

structure BackfillState where
  db : List CorrectionRow
  imported : Nat
  next_id : Nat
deriving DecidableEq

/-- `Uuid::new_v4().to_string()`: fresh ids are modelled as distinct
counter-derived strings (no claim depends on their values, only on their
not colliding with the reserved marker id). -/
def freshUuid (n : Nat) : String :=
  String.mk (List.replicate n (Char.ofNat 120)) ++ "-uuid"

/-- The per-line body of the backfill loop (migrations.rs lines 240-291).
`execOk` is the database's verdict on the single INSERT (the
`match conn.execute(..)` branch): a failed insert is logged and skipped.
A UUID is generated exactly when a highlight id was found. -/
def processLine (execOk : CorrectionRow → Bool) (st : BackfillState) (ln : LogLine) :
    BackfillState :=
  match ln with
  | .readFail => st
  | .empty => st
  | .parseFail => st
  | .json v =>
    match (v.get "highlight_id").asStr with
    | none => st
    | some hid =>
      let row := rowFromJson (freshUuid st.next_id) v hid
      if execOk row then
        { db := backfill_upsert st.db row, imported := st.imported + 1
          next_id := st.next_id + 1 }
      else
        { st with next_id := st.next_id + 1 }

/-- Per-file processing: an unreadable file contributes nothing and the
run continues with the next file. -/
def processFile (execOk : CorrectionRow → Bool) (st : BackfillState) (f : LogFile) :
    BackfillState :=
  match f.content with
  | none => st
  | some lines => lines.foldl (processLine execOk) st

def listPrefixB : List Char → List Char → Bool
  | [], _ => true
  | _ :: _, [] => false
  | x :: xs, y :: ys => x == y && listPrefixB xs ys

/-- `path.extension() == Some("jsonl")`: the name ends in `.jsonl` and is
not the bare dotfile name `.jsonl` (which Rust treats as having no
extension). -/
def hasJsonlExt (name : String) : Bool :=
  listPrefixB ".jsonl".data.reverse name.data.reverse && !(name == ".jsonl")

/-- `backfill_corrections_from_dir` (migrations.rs lines 217-294): a
missing or unlistable directory yields zero records; otherwise keep the
`.jsonl` files, sort by name ascending, and process each file line by
line. Returns the new table and the imported count. -/
def backfill_corrections_from_dir (execOk : CorrectionRow → Bool)
    (db : List CorrectionRow) (dir : Option (List LogFile)) :
    List CorrectionRow × Nat :=
  match dir with
  | none => (db, 0)
  | some files =>
    let sorted := stableSortBy (fun a b => strLeB a.name b.name)
      (files.filter (fun f => hasJsonlExt f.name))
    let st := sorted.foldl (processFile execOk) { db := db, imported := 0, next_id := 0 }
    (st.db, st.imported)

def hasBackfillSentinel (db : List CorrectionRow) : Bool :=
  db.any (fun r => r.session_id == "__backfilled__")

/-- The INSERT OR IGNORE of the sentinel row (migrations.rs
lines 199-206): ignored when a row with the marker primary key or the
marker highlight id already exists. -/
def insertOrIgnoreSentinel (db : List CorrectionRow) : List CorrectionRow :=
  if db.any (fun r => r.id == "__backfill_marker__" ||
      r.highlight_id == "__backfill_marker__") then db
  else db ++ [sentinelRow]

/-- The backfill gate inside `migrate_corrections_drop_fks`
(migrations.rs lines 183-209): skip everything when the sentinel is
present; otherwise run the import and, only if at least one record was
imported, write the sentinel. -/
def backfill_once_step (execOk : CorrectionRow → Bool) (db : List CorrectionRow)
    (dir : Option (List LogFile)) : List CorrectionRow × Nat :=
  if hasBackfillSentinel db then (db, 0)
  else
    let result := backfill_corrections_from_dir execOk db dir
    if 0 < result.2 then (insertOrIgnoreSentinel result.1, result.2)
    else result

/-! ### Schema migrations (migrations.rs lines 132-181 and 620-659)

The schema shape the migration functions introspect: the ordered column
lists of `corrections` and `documents` (PRAGMA table_info), the number of
foreign keys on `corrections` (PRAGMA foreign_key_list), and the index
names (CREATE INDEX IF NOT EXISTS). -/

structure SchemaState where
  corrections_cols : List String
  documents_cols : List String
  corrections_fk_count : Nat
  indexes : List String
deriving DecidableEq

def addIndexIfAbsent (name : String) (idxs : List String) : List String :=
  if name ∈ idxs then idxs else idxs ++ [name]

/-- The column list of the rebuilt `corrections_new` table
(migrations.rs lines 149-166). -/
def rebuiltCorrectionsCols : List String :=
  ["id", "highlight_id", "document_id", "session_id", "original_text",
   "prefix_context", "suffix_context", "extended_context", "notes_json",
   "document_title", "document_source", "document_path", "category",
   "highlight_color", "created_at", "updated_at"]

/-- The schema half of `migrate_corrections_drop_fks` (migrations.rs
lines 134-181): when `corrections` still has foreign keys, rebuild it
(one transaction: shadow table, copy, drop, rename, recreate indexes);
otherwise leave the schema untouched. -/
def migrate_corrections_drop_fks_schema (s : SchemaState) : SchemaState :=
  if 0 < s.corrections_fk_count then
    { s with
      corrections_cols := rebuiltCorrectionsCols
      corrections_fk_count := 0
      indexes := addIndexIfAbsent "idx_corrections_session"
        (addIndexIfAbsent "idx_corrections_document" s.indexes) }
  else s

/-- `migrate_corrections_add_writing_type` (migrations.rs lines 620-640):
ALTER TABLE only when PRAGMA table_info shows no `writing_type` column. -/
def migrate_corrections_add_writing_type (s : SchemaState) : SchemaState :=
  if "writing_type" ∈ s.corrections_cols then s
  else
    { s with
      corrections_cols := s.corrections_cols ++ ["writing_type"]
      indexes := addIndexIfAbsent "idx_corrections_writing_type" s.indexes }

/-- `migrate_documents_add_frecency_columns` (migrations.rs
lines 642-659): the column list is read once and each missing column is
added independently. -/
def migrate_documents_add_frecency_columns (s : SchemaState) : SchemaState :=
  let cols := s.documents_cols
  let s1 :=
    if "access_count" ∈ cols then s
    else { s with documents_cols := s.documents_cols ++ ["access_count"] }
  if "indexed_at" ∈ cols then s1
  else { s1 with documents_cols := s1.documents_cols ++ ["indexed_at"] }

/-- A schema on which every migration step has already run. -/
def SchemaMigrated (s : SchemaState) : Prop :=
  s.corrections_fk_count = 0 ∧
  "writing_type" ∈ s.corrections_cols ∧
  "access_count" ∈ s.documents_cols ∧
  "indexed_at" ∈ s.documents_cols

instance : DecidablePred SchemaMigrated := fun _ =>
  inferInstanceAs (Decidable (_ ∧ _ ∧ _ ∧ _))

/-- The migration pipeline of `init_db` (migrations.rs lines 120-127), on
its schema effect. -/
def runMigrations (s : SchemaState) : SchemaState :=
  migrate_documents_add_frecency_columns
    (migrate_corrections_add_writing_type (migrate_corrections_drop_fks_schema s))

/-! ### Observation helpers used by the theorems -/

/-- The database accepting every single INSERT (the normal case). -/
def allOk : CorrectionRow → Bool := fun _ => true

/-- The mutable fields of a correction row in the backfill upsert's
DO UPDATE list: original_text, notes_json, document_title,
highlight_color, updated_at. -/
def mutableOf (r : CorrectionRow) : String × String × Option String × String × Int :=
  (r.original_text, r.notes_json, r.document_title, r.highlight_color, r.updated_at)

/-- The values those fields take from a parsed JSONL record. -/
def mutableFromJson (v : Json) : String × String × Option String × String × Int :=
  (((v.get "original_text").asStr).getD "", (v.get "notes").serialize,
   (v.get "document_title").asStr, ((v.get "highlight_color").asStr).getD "yellow",
   ((v.get "exported_at").asInt).getD 0)

/-- Does a log line carry a valid record for the given highlight id? -/
def lineHas (hid : String) : LogLine → Bool
  | .json v => (v.get "highlight_id").asStr == some hid
  | _ => false

/-- Lines the backfill loop skips before reaching the insert: read
errors, empty lines, unparsable lines, and records without a highlight
id. -/
def lineSkipped : LogLine → Bool
  | .json v => ((v.get "highlight_id").asStr).isNone
  | _ => true

/-! Concrete demonstration values (used by counterexamples and
witnesses). -/

/-- A valid JSONL record as produced by `persist_corrections`. -/
def demoJson : Json :=
  .obj [("highlight_id", .str "h1"), ("session_id", .str "s1"),
        ("original_text", .str "bad text"), ("notes", .arr [.str "fix"]),
        ("document_id", .str "d1"), ("document_source", .str "file"),
        ("highlight_color", .str "yellow"), ("exported_at", .num 1700000000000)]

/-- A later record for the same highlight with different content. -/
def demoJson2 : Json :=
  .obj [("highlight_id", .str "h1"), ("session_id", .str "s2"),
        ("original_text", .str "new text"), ("notes", .arr [.str "better fix"]),
        ("document_id", .str "d1"), ("document_title", .str "Doc"),
        ("document_source", .str "file"),
        ("highlight_color", .str "green"), ("exported_at", .num 1700000001000)]

def demoLogFile : LogFile :=
  { name := "corrections-2026-02-01.jsonl", content := some [LogLine.json demoJson] }

def demoLogFile2 : LogFile :=
  { name := "corrections-2026-02-23.jsonl", content := some [LogLine.json demoJson2] }

/-- A log file whose open fails. -/
def unreadableFile : LogFile :=
  { name := "corrections-2026-02-02.jsonl", content := none }

/-- A document opened now with a small access count. -/
def decayDemoNew (bm : ℚ) : FtsMatchRow :=
  { document_id := "new", title := "New Rust", snippet := "Learn Rust now"
    bm25 := bm, access_count := some 3, last_opened_at := some 1700000000000 }

/-- A document opened two years (730 days) earlier with a large access
count. -/
def decayDemoStale (bm : ℚ) : FtsMatchRow :=
  { document_id := "stale", title := "Stale Rust", snippet := "Learn Rust now"
    bm25 := bm, access_count := some 100, last_opened_at := some 1636928000000 }

/-- Never-opened documents (access_count 0): one touched now, one a year
(365 days) earlier. -/
def tieRecent : FtsMatchRow :=
  { document_id := "recent", title := "t", snippet := "s", bm25 := -1
    access_count := some 0, last_opened_at := some 1700000000000 }

def tieStale : FtsMatchRow :=
  { document_id := "stale", title := "t", snippet := "s", bm25 := -1
    access_count := some 0, last_opened_at := some 1668464000000 }

/-- Two documents with access_count 1 whose last-opened times differ by
100 ms inside the same second. -/
def secNew : FtsMatchRow :=
  { document_id := "a", title := "t", snippet := "s", bm25 := -1
    access_count := some 1, last_opened_at := some 1700000000500 }

def secOld : FtsMatchRow :=
  { document_id := "b", title := "t", snippet := "s", bm25 := -1
    access_count := some 1, last_opened_at := some 1700000000400 }

/-- A document opened now and one opened a year (365 days) earlier, both
with access_count 1. -/
def frecRecent : FtsMatchRow :=
  { document_id := "recent", title := "t", snippet := "s", bm25 := -1
    access_count := some 1, last_opened_at := some 1700000000000 }

def frecStale : FtsMatchRow :=
  { document_id := "stale", title := "t", snippet := "s", bm25 := -1
    access_count := some 1, last_opened_at := some 1668464000000 }

/-- Documents opened at the same moment with access counts 50 and 1. -/
def frecFreq : FtsMatchRow :=
  { document_id := "freq", title := "t", snippet := "s", bm25 := -1
    access_count := some 50, last_opened_at := some 1700000000000 }

def frecRare : FtsMatchRow :=
  { document_id := "rare", title := "t", snippet := "s", bm25 := -1
    access_count := some 1, last_opened_at := some 1700000000000 }

/-- A stored correction with a non-null writing type. -/
def demoRow : CorrectionRow :=
  { id := "id1", highlight_id := "h1", document_id := "doc1", session_id := "sess1"
    original_text := "text", prefix_context := none, suffix_context := none
    extended_context := none, notes_json := "[\"note\"]", document_title := some "Test"
    document_source := "file", document_path := none, category := none
    highlight_color := "yellow", created_at := 1000, updated_at := 1000
    writing_type := some "prd" }

/-- An incoming correction for the same highlight with a null writing
type. -/
def demoInputNone : CorrectionInput :=
  { highlight_id := "h1", original_text := "updated", prefix_context := none
    suffix_context := none, extended_context := none, notes := ["new"]
    highlight_color := "yellow", writing_type := none }

/-- The same incoming correction with a non-null writing type. -/
def demoInputEmail : CorrectionInput :=
  { highlight_id := "h1", original_text := "updated", prefix_context := none
    suffix_context := none, extended_context := none, notes := ["new"]
    highlight_color := "yellow", writing_type := some "email" }

/-! ## Helper lemmas -/

lemma insertSorted_perm (le : α → α → Bool) (x : α) (l : List α) :
    (insertSorted le x l).Perm (x :: l) := by
  induction l with
  | nil => simp [insertSorted]
  | cons y ys ih =>
    simp only [insertSorted]
    split
    · exact List.Perm.refl _
    · exact (ih.cons y).trans (List.Perm.swap x y ys)

lemma stableSortBy_perm (le : α → α → Bool) (l : List α) :
    (stableSortBy le l).Perm l := by
  induction l with
  | nil => exact List.Perm.refl _
  | cons x xs ih =>
    exact (insertSorted_perm le x (stableSortBy le xs)).trans (ih.cons x)

lemma sort_pair (le : α → α → Bool) (x y : α) :
    stableSortBy le [x, y] = if le x y then [x, y] else [y, x] := by
  simp only [stableSortBy, List.foldr, insertSorted]

lemma filter_map_if_eq (p : α → Bool) (g : α → α) (hg : ∀ a, p (g a) = p a)
    (l : List α) :
    (l.map (fun a => if p a then g a else a)).filter p = (l.filter p).map g := by
  induction l with
  | nil => rfl
  | cons a as ih =>
    cases hpa : p a <;>
      simp [List.filter_cons, hpa, hg a, ih]

lemma filter_map_if_disjoint (p q : α → Bool) (g : α → α) (hg : ∀ a, p (g a) = p a)
    (hpq : ∀ a, q a = true → p a = false) (l : List α) :
    (l.map (fun a => if q a then g a else a)).filter p = l.filter p := by
  induction l with
  | nil => rfl
  | cons a as ih =>
    cases hqa : q a
    · simp [List.filter_cons, hqa, ih]
    · simp [List.filter_cons, hqa, hg a, hpq a hqa, ih]

/-! ## C7: full replace / removal semantics of the indexer -/

/-- **C7.** For every prior index state, `index_document_inner` leaves
exactly one entry for the document id, holding exactly the new title and
content (so re-indexing never duplicates and replaced content is gone);
`remove_document_index_inner` leaves no entry for the id, and removing a
non-indexed id returns the index unchanged (no error). -/
theorem c7_index_replace :
    (∀ (fts : List FtsEntry) (id t c : String),
        (index_document_inner fts id t c).filter (fun e => e.document_id == id) =
          [{ document_id := id, title := t, content := c }]) ∧
    (∀ (fts : List FtsEntry) (id : String),
        (remove_document_index_inner fts id).filter (fun e => e.document_id == id) = []) ∧
    (∀ (fts : List FtsEntry) (id : String),
        fts.filter (fun e => e.document_id == id) = [] →
          remove_document_index_inner fts id = fts) := by
  refine ⟨?_, ?_, ?_⟩
  · intro fts id t c
    simp [index_document_inner, List.filter_append, List.filter_filter]
  · intro fts id
    simp [remove_document_index_inner, List.filter_filter]
  · intro fts id h
    have hall := List.filter_eq_nil_iff.mp h
    refine List.filter_eq_self.mpr ?_
    intro a ha
    simpa using hall a ha

/-- Witness for C7 at a concrete index state. -/
theorem c7_witness :
    ([({ document_id := "d2", title := "x", content := "y" } : FtsEntry)].filter
        (fun e => e.document_id == "d1") = []) ∧
    remove_document_index_inner
        [({ document_id := "d2", title := "x", content := "y" } : FtsEntry)] "d1" =
      [{ document_id := "d2", title := "x", content := "y" }] ∧
    (index_document_inner
        [({ document_id := "d1", title := "old", content := "cats" } : FtsEntry)]
        "d1" "new" "dogs").filter (fun e => e.document_id == "d1") =
      [{ document_id := "d1", title := "new", content := "dogs" }] := by
  refine ⟨by decide, ?_, ?_⟩
  · exact c7_index_replace.2.2
      [{ document_id := "d2", title := "x", content := "y" }] "d1" (by decide)
  · exact c7_index_replace.1
      [{ document_id := "d1", title := "old", content := "cats" }] "d1" "new" "dogs"

/-! ## C8: sanitizer drops operator keywords and wraps terms -/

/-- **C8.** Keyword terms (AND/OR/NOT/NEAR, case-insensitively) never
influence the sanitized expression; every surviving term is a nonempty
double-quoted phrase of kept characters with a trailing `*`; terms are
joined by single spaces; `sanitize("hello OR") = sanitize("hello")`; and
empty, whitespace-only or all-symbol input yields the empty expression. -/
theorem c8_sanitize :
    (∀ ts : List String,
        sanitizeTerms (ts.filter (fun w => !(isFtsKeyword w))) = sanitizeTerms ts) ∧
    (∀ (ts : List String) (w : String), w ∈ sanitizeTerms ts →
        ∃ core : List Char, core ≠ [] ∧ (∀ c ∈ core, keepTermChar c = true) ∧
          w = "\"" ++ String.mk core ++ "\"*") ∧
    (isFtsKeyword "or" = true ∧ isFtsKeyword "AnD" = true ∧
      isFtsKeyword "NOT" = true ∧ isFtsKeyword "Near" = true) ∧
    sanitize_fts_query "hello OR" = sanitize_fts_query "hello" ∧
    sanitize_fts_query "hello" = "\"hello\"*" ∧
    sanitize_fts_query "hello world" = "\"hello\"* \"world\"*" ∧
    sanitize_fts_query "" = "" ∧ sanitize_fts_query "   " = "" ∧
    sanitize_fts_query "+++" = "" := by
  refine ⟨?_, ?_, ⟨by decide, by decide, by decide, by decide⟩,
    by rfl, by rfl, by rfl, by rfl, by rfl, by rfl⟩
  · intro ts
    simp [sanitizeTerms, List.filter_filter]
  · intro ts w hw
    simp only [sanitizeTerms, List.mem_filter, List.mem_map] at hw
    obtain ⟨⟨w0, _, rfl⟩, hne⟩ := hw
    simp only [wrapTerm] at hne ⊢
    split at hne
    · exact absurd hne (by decide)
    · rename_i hcl
      rw [if_neg hcl]
      refine ⟨w0.data.filter keepTermChar, ?_, ?_, rfl⟩
      · intro hnil
        exact hcl (by simp [hnil])
      · intro c hc
        exact (List.mem_filter.mp hc).2

/-- Witness for C8: the surviving-term shape at a concrete input. -/
theorem c8_witness :
    ("\"hello\"*" ∈ sanitizeTerms ["hello"]) ∧
    (∃ core : List Char, core ≠ [] ∧ (∀ c ∈ core, keepTermChar c = true) ∧
      "\"hello\"*" = "\"" ++ String.mk core ++ "\"*") :=
  ⟨by decide, c8_sanitize.2.1 ["hello"] "\"hello\"*" (by decide)⟩

/-! ## C9: schema-migration idempotence -/

lemma migrations_noop_of_migrated (s : SchemaState) (h : SchemaMigrated s) :
    migrate_corrections_drop_fks_schema s = s ∧
    migrate_corrections_add_writing_type s = s ∧
    migrate_documents_add_frecency_columns s = s := by
  obtain ⟨h0, h1, h2, h3⟩ := h
  refine ⟨?_, ?_, ?_⟩
  · simp [migrate_corrections_drop_fks_schema, h0]
  · simp [migrate_corrections_add_writing_type, h1]
  · simp [migrate_documents_add_frecency_columns, h2, h3]

lemma dropFks_fk (s : SchemaState) :
    (migrate_corrections_drop_fks_schema s).corrections_fk_count = 0 := by
  unfold migrate_corrections_drop_fks_schema
  split
  · rfl
  · omega

lemma dropFks_documents_cols (s : SchemaState) :
    (migrate_corrections_drop_fks_schema s).documents_cols = s.documents_cols := by
  unfold migrate_corrections_drop_fks_schema
  split <;> rfl

lemma addWritingType_fk (s : SchemaState) :
    (migrate_corrections_add_writing_type s).corrections_fk_count =
      s.corrections_fk_count := by
  unfold migrate_corrections_add_writing_type
  split <;> rfl

lemma addWritingType_documents_cols (s : SchemaState) :
    (migrate_corrections_add_writing_type s).documents_cols = s.documents_cols := by
  unfold migrate_corrections_add_writing_type
  split <;> rfl

lemma addWritingType_mem (s : SchemaState) :
    "writing_type" ∈ (migrate_corrections_add_writing_type s).corrections_cols := by
  unfold migrate_corrections_add_writing_type
  split
  · assumption
  · simp

lemma addFrecency_fk (s : SchemaState) :
    (migrate_documents_add_frecency_columns s).corrections_fk_count =
      s.corrections_fk_count := by
  simp only [migrate_documents_add_frecency_columns]
  split_ifs <;> rfl

lemma addFrecency_corrections_cols (s : SchemaState) :
    (migrate_documents_add_frecency_columns s).corrections_cols =
      s.corrections_cols := by
  simp only [migrate_documents_add_frecency_columns]
  split_ifs <;> rfl

lemma addFrecency_access (s : SchemaState) :
    "access_count" ∈ (migrate_documents_add_frecency_columns s).documents_cols := by
  simp only [migrate_documents_add_frecency_columns]
  split_ifs <;> simp_all [List.mem_append]

lemma addFrecency_indexed (s : SchemaState) :
    "indexed_at" ∈ (migrate_documents_add_frecency_columns s).documents_cols := by
  simp only [migrate_documents_add_frecency_columns]
  split_ifs <;> simp_all [List.mem_append]

lemma migrated_after_runMigrations (s : SchemaState) : SchemaMigrated (runMigrations s) := by
  refine ⟨?_, ?_, addFrecency_access _, addFrecency_indexed _⟩
  · rw [runMigrations, addFrecency_fk, addWritingType_fk, dropFks_fk]
  · rw [runMigrations, addFrecency_corrections_cols]
    exact addWritingType_mem _

lemma runMigrations_noop_of_migrated (s : SchemaState) (h : SchemaMigrated s) :
    runMigrations s = s := by
  obtain ⟨e1, e2, e3⟩ := migrations_noop_of_migrated s h
  rw [runMigrations, e1, e2, e3]

/-- **C9.** On an already-migrated schema (no foreign keys on
corrections, `writing_type` present, `access_count` and `indexed_at`
present) every migration function is the identity — a second run changes
nothing and can introduce no duplicate column; moreover one run of the
pipeline always produces a migrated schema, so the pipeline is
idempotent from any starting shape. -/
theorem c9_migration_idempotent :
    (∀ s : SchemaState, SchemaMigrated s →
        migrate_corrections_drop_fks_schema s = s ∧
        migrate_corrections_add_writing_type s = s ∧
        migrate_documents_add_frecency_columns s = s ∧
        runMigrations s = s) ∧
    (∀ s : SchemaState, SchemaMigrated (runMigrations s)) ∧
    (∀ s : SchemaState, runMigrations (runMigrations s) = runMigrations s) := by
  refine ⟨?_, migrated_after_runMigrations, ?_⟩
  · intro s h
    obtain ⟨e1, e2, e3⟩ := migrations_noop_of_migrated s h
    exact ⟨e1, e2, e3, runMigrations_noop_of_migrated s h⟩
  · intro s
    exact runMigrations_noop_of_migrated _ (migrated_after_runMigrations s)

/-- Witness for C9: the initial pre-migration schema of `init_db`
(migrations.rs lines 86-103), with one foreign-key-bearing shape, is
migrated once, after which every function is the identity. -/
theorem c9_witness :
    SchemaMigrated
      { corrections_cols := rebuiltCorrectionsCols ++ ["writing_type"]
        documents_cols := ["id", "source", "file_path", "keep_local_id", "title",
          "author", "url", "word_count", "last_opened_at", "created_at",
          "access_count", "indexed_at"]
        corrections_fk_count := 0
        indexes := ["idx_corrections_document", "idx_corrections_session",
          "idx_corrections_writing_type"] } ∧
    runMigrations
        { corrections_cols := rebuiltCorrectionsCols ++ ["writing_type"]
          documents_cols := ["id", "source", "file_path", "keep_local_id", "title",
            "author", "url", "word_count", "last_opened_at", "created_at",
            "access_count", "indexed_at"]
          corrections_fk_count := 0
          indexes := ["idx_corrections_document", "idx_corrections_session",
            "idx_corrections_writing_type"] } =
      { corrections_cols := rebuiltCorrectionsCols ++ ["writing_type"]
        documents_cols := ["id", "source", "file_path", "keep_local_id", "title",
          "author", "url", "word_count", "last_opened_at", "created_at",
          "access_count", "indexed_at"]
        corrections_fk_count := 0
        indexes := ["idx_corrections_document", "idx_corrections_session",
          "idx_corrections_writing_type"] } :=
  ⟨by decide, (c9_migration_idempotent.1 _ (by decide)).2.2.2⟩

/-! ## C2: sticky writing-type upsert -/

lemma any_of_filter_eq_singleton (p : α → Bool) (l : List α) (x : α)
    (h : l.filter p = [x]) : l.any p = true := by
  have hmem : x ∈ l.filter p := by rw [h]; exact List.mem_singleton_self x
  exact List.any_eq_true.mpr
    ⟨x, (List.mem_filter.mp hmem).1, (List.mem_filter.mp hmem).2⟩

/-- **C2.** When the corrections table holds exactly one row for the
incoming highlight id, the `persist_corrections` upsert leaves that row's
`writing_type` untouched when the incoming value is null, and replaces it
when the incoming value is non-null. -/
theorem c2_writing_type_upsert :
    ∀ (db : List CorrectionRow) (new_id : String) (input : CorrectionInput)
      (document_id session_id : String) (document_title : Option String)
      (document_source : String) (document_path : Option String) (now : Int)
      (r0 : CorrectionRow),
      db.filter (fun r => r.highlight_id == input.highlight_id) = [r0] →
      ((input.writing_type = none →
          ((persist_correction_upsert db new_id input document_id session_id
                document_title document_source document_path now).filter
              (fun r => r.highlight_id == input.highlight_id)).map
            (fun r => r.writing_type) = [r0.writing_type]) ∧
       (∀ w : String, input.writing_type = some w →
          ((persist_correction_upsert db new_id input document_id session_id
                document_title document_source document_path now).filter
              (fun r => r.highlight_id == input.highlight_id)).map
            (fun r => r.writing_type) = [some w])) := by
  intro db new_id input document_id session_id document_title document_source
    document_path now r0 hf
  have hany := any_of_filter_eq_singleton _ db r0 hf
  have hkey :
      (persist_correction_upsert db new_id input document_id session_id
          document_title document_source document_path now).filter
        (fun r => r.highlight_id == input.highlight_id) =
      (db.filter (fun r => r.highlight_id == input.highlight_id)).map
        (fun r =>
          { r with
            session_id := session_id
            original_text := input.original_text
            prefix_context := input.prefix_context
            suffix_context := input.suffix_context
            extended_context := input.extended_context
            notes_json := serializeStringList input.notes
            document_title := document_title
            document_source := document_source
            document_path := document_path
            highlight_color := input.highlight_color
            updated_at := now
            writing_type :=
              match input.writing_type with
              | some w => some w
              | none => r.writing_type }) := by
    rw [persist_correction_upsert, if_pos hany]
    exact filter_map_if_eq (fun r => r.highlight_id == input.highlight_id)
      (fun r =>
        { r with
          session_id := session_id
          original_text := input.original_text
          prefix_context := input.prefix_context
          suffix_context := input.suffix_context
          extended_context := input.extended_context
          notes_json := serializeStringList input.notes
          document_title := document_title
          document_source := document_source
          document_path := document_path
          highlight_color := input.highlight_color
          updated_at := now
          writing_type :=
            match input.writing_type with
            | some w => some w
            | none => r.writing_type })
      (fun a => rfl) db
  constructor
  · intro hw
    rw [hkey, hf]
    simp [hw]
  · intro w hw
    rw [hkey, hf]
    simp [hw]

/-- Witness for C2 at the concrete stored row `demoRow` (writing type
"prd"): a null incoming writing type preserves "prd", a non-null one
overwrites it with "email". -/
theorem c2_witness :
    ([demoRow].filter (fun r => r.highlight_id == demoInputNone.highlight_id) =
        [demoRow]) ∧
    demoInputNone.writing_type = none ∧
    ((persist_correction_upsert [demoRow] "id2" demoInputNone "doc1" "sess2"
          (some "Test") "file" none 2000).filter
        (fun r => r.highlight_id == demoInputNone.highlight_id)).map
      (fun r => r.writing_type) = [some "prd"] ∧
    ((persist_correction_upsert [demoRow] "id2" demoInputEmail "doc1" "sess2"
          (some "Test") "file" none 2000).filter
        (fun r => r.highlight_id == demoInputEmail.highlight_id)).map
      (fun r => r.writing_type) = [some "email"] :=
  ⟨by decide, rfl,
   (c2_writing_type_upsert [demoRow] "id2" demoInputNone "doc1" "sess2"
      (some "Test") "file" none 2000 demoRow (by decide)).1 rfl,
   (c2_writing_type_upsert [demoRow] "id2" demoInputEmail "doc1" "sess2"
      (some "Test") "file" none 2000 demoRow (by decide)).2 "email" rfl⟩

/-! ## C1: sentinel-row exclusion from reads and exports -/

lemma filter_length_lt (p : α → Bool) (l : List α) (x : α) (hx : x ∈ l)
    (hpx : p x = false) : (l.filter p).length < l.length := by
  induction l with
  | nil => cases hx
  | cons a as ih =>
    rcases List.mem_cons.mp hx with rfl | hxs
    · rw [List.filter_cons, hpx]
      exact Nat.lt_succ_of_le (List.length_filter_le p as)
    · rw [List.filter_cons]
      cases hpa : p a
      · exact Nat.lt_succ_of_lt (ih hxs)
      · simpa using Nat.succ_lt_succ (ih hxs)

/-- **C1 counterexample.** The claim asserts every normal read over
corrections excludes the backfill sentinel; but on a table holding only
the sentinel row, `count_corrections` (get_corrections_count) reports 1
and `fetch_corrections` (get_all_corrections) returns the sentinel-derived
record — neither has a `session_id != '__backfilled__'` clause. -/
theorem c1_counterexample :
    count_corrections [sentinelRow] = 1 ∧
    (fetch_corrections [sentinelRow] 200).length = 1 ∧
    sentinelRow.session_id = "__backfilled__" :=
  ⟨rfl, rfl, rfl⟩

/-- **C1 (amended).** The sentinel row is excluded from
`get_corrections_by_document` and the JSON export — their results never
change if sentinel rows are removed beforehand — but
`get_all_corrections` and `get_corrections_count` include it: the count
strictly drops when a sentinel row is filtered out, and a
sentinel-only table yields the sentinel-derived record. -/
theorem c1_sentinel_exclusion_amended :
    (∀ (db : List CorrectionRow) (limit : Nat),
        fetch_corrections_by_document db limit =
          fetch_corrections_by_document
            (db.filter (fun r => !(r.session_id == "__backfilled__"))) limit) ∧
    (∀ db : List CorrectionRow,
        build_corrections_export db =
          build_corrections_export
            (db.filter (fun r => !(r.session_id == "__backfilled__")))) ∧
    (∀ (db : List CorrectionRow) (r : CorrectionRow), r ∈ db →
        r.session_id = "__backfilled__" →
        count_corrections (db.filter (fun r => !(r.session_id == "__backfilled__"))) <
          count_corrections db) ∧
    fetch_corrections [sentinelRow] 200 = [toCorrectionRecord sentinelRow] := by
  refine ⟨?_, ?_, ?_, rfl⟩
  · intro db limit
    simp [fetch_corrections_by_document, List.filter_filter]
  · intro db
    simp [build_corrections_export, List.filter_filter]
  · intro db r hr hs
    exact filter_length_lt _ db r hr (by simp [hs])

/-- Witness for C1 (amended) on a table holding one real correction and
the sentinel. -/
theorem c1_witness :
    (sentinelRow ∈ [demoRow, sentinelRow]) ∧
    sentinelRow.session_id = "__backfilled__" ∧
    count_corrections
        ([demoRow, sentinelRow].filter (fun r => !(r.session_id == "__backfilled__"))) <
      count_corrections [demoRow, sentinelRow] ∧
    fetch_corrections_by_document [demoRow, sentinelRow] 50 =
      fetch_corrections_by_document
        ([demoRow, sentinelRow].filter (fun r => !(r.session_id == "__backfilled__"))) 50 :=
  ⟨by decide, rfl,
   c1_sentinel_exclusion_amended.2.2.1 [demoRow, sentinelRow] sentinelRow (by decide) rfl,
   c1_sentinel_exclusion_amended.1 [demoRow, sentinelRow] 50⟩

/-! ## C5: per-item failures are skipped, the run continues -/

lemma processLine_skipped (execOk : CorrectionRow → Bool) (st : BackfillState)
    (ln : LogLine) (h : lineSkipped ln = true) : processLine execOk st ln = st := by
  cases ln with
  | readFail => rfl
  | empty => rfl
  | parseFail => rfl
  | json v =>
    have hv : (v.get "highlight_id").asStr = none := by
      simpa [lineSkipped, Option.isNone_iff_eq_none] using h
    simp [processLine, hv]

/-- **C5.** Backfill never aborts on a per-item failure: a nonexistent
directory yields (db, 0); a skippable line (read error, empty,
unparsable, or lacking a highlight id) anywhere in a file leaves the fold
exactly as if the line were absent; an unreadable file contributes
nothing and the run continues; a single failed INSERT changes neither the
table nor the imported count, and processing continues. -/
theorem c5_backfill_skips :
    (∀ (execOk : CorrectionRow → Bool) (db : List CorrectionRow),
        backfill_corrections_from_dir execOk db none = (db, 0)) ∧
    (∀ (execOk : CorrectionRow → Bool) (st : BackfillState) (pre post : List LogLine)
        (bad : LogLine), lineSkipped bad = true →
        (pre ++ bad :: post).foldl (processLine execOk) st =
          (pre ++ post).foldl (processLine execOk) st) ∧
    (∀ (execOk : CorrectionRow → Bool) (st : BackfillState) (f : LogFile),
        f.content = none → processFile execOk st f = st) ∧
    (∀ (execOk : CorrectionRow → Bool) (st : BackfillState) (v : Json) (hid : String),
        (v.get "highlight_id").asStr = some hid →
        execOk (rowFromJson (freshUuid st.next_id) v hid) = false →
        processLine execOk st (.json v) = { st with next_id := st.next_id + 1 }) := by
  refine ⟨fun _ _ => rfl, ?_, ?_, ?_⟩
  · intro execOk st pre post bad hbad
    rw [List.foldl_append, List.foldl_append, List.foldl_cons,
      processLine_skipped execOk _ bad hbad]
  · intro execOk st f h
    simp [processFile, h]
  · intro execOk st v hid hv hex
    simp [processLine, hv, hex]

/-- Witness for C5: each skip case at concrete inputs. -/
theorem c5_witness :
    backfill_corrections_from_dir allOk [] none = ([], 0) ∧
    (lineSkipped LogLine.empty = true ∧
      ([LogLine.json demoJson] ++ LogLine.empty :: []).foldl (processLine allOk)
          { db := [], imported := 0, next_id := 0 } =
        ([LogLine.json demoJson] ++ []).foldl (processLine allOk)
          { db := [], imported := 0, next_id := 0 }) ∧
    (unreadableFile.content = none ∧
      processFile allOk { db := [], imported := 0, next_id := 0 } unreadableFile =
        { db := [], imported := 0, next_id := 0 }) ∧
    ((Json.get demoJson "highlight_id").asStr = some "h1" ∧
      processLine (fun _ => false) { db := [], imported := 0, next_id := 0 }
          (.json demoJson) =
        { db := [], imported := 0, next_id := 1 }) :=
  ⟨c5_backfill_skips.1 allOk [],
   ⟨rfl, c5_backfill_skips.2.1 allOk { db := [], imported := 0, next_id := 0 }
      [LogLine.json demoJson] [] LogLine.empty rfl⟩,
   ⟨rfl, c5_backfill_skips.2.2.1 allOk { db := [], imported := 0, next_id := 0 }
      unreadableFile rfl⟩,
   ⟨rfl, c5_backfill_skips.2.2.2 (fun _ => false)
      { db := [], imported := 0, next_id := 0 } demoJson "h1" rfl rfl⟩⟩

/-! ## C10: the reported rank is the raw bm25 value -/

/-- **C10.** Every returned search result carries as `rank` the raw
bm25 value of its source row (the SELECTed `bm25(documents_fts, 10.0,
1.0)` column), and — when the limit does not truncate — changing the
frecency inputs (`access_count`, `last_opened_at`, or the clock) permutes
the returned (document_id, rank) pairs without altering any rank value. -/
theorem c10_rank_is_bm25 :
    (∀ (nowJD : ℚ) (rows : List FtsMatchRow) (q : String) (limit : Nat)
        (res : SearchResult), res ∈ search_documents_inner nowJD rows q limit →
        ∃ row ∈ rows, res.document_id = row.document_id ∧ res.rank = row.bm25) ∧
    (∀ (nowJD nowJD2 : ℚ) (rows : List FtsMatchRow)
        (f g : FtsMatchRow → Option Int) (q : String) (limit : Nat),
        rows.length ≤ limit →
        ((search_documents_inner nowJD2
            (rows.map (fun r => { r with access_count := f r, last_opened_at := g r }))
            q limit).map (fun res => (res.document_id, res.rank))).Perm
          ((search_documents_inner nowJD rows q limit).map
            (fun res => (res.document_id, res.rank)))) := by
  constructor
  · intro nowJD rows q limit res hres
    rw [search_documents_inner] at hres
    split at hres
    · cases hres
    · obtain ⟨row, hrow, rfl⟩ := List.mem_map.mp hres
      exact ⟨row,
        ((stableSortBy_perm _ rows).mem_iff).mp (List.mem_of_mem_take hrow),
        rfl, rfl⟩
  · intro nowJD nowJD2 rows f g q limit hlim
    rw [search_documents_inner, search_documents_inner]
    split
    · exact List.Perm.refl _
    · have hlen1 :
        (stableSortBy (fun a b =>
            decide (rowScore nowJD a ≤ rowScore nowJD b)) rows).length ≤ limit := by
        rw [(stableSortBy_perm _ rows).length_eq]
        exact hlim
      have hlen2 :
        (stableSortBy (fun a b => decide (rowScore nowJD2 a ≤ rowScore nowJD2 b))
            (rows.map (fun r =>
              { r with access_count := f r, last_opened_at := g r }))).length ≤ limit := by
        rw [(stableSortBy_perm _ _).length_eq, List.length_map]
        exact hlim
      have key : ∀ l : List FtsMatchRow,
          (l.map toSearchResult).map (fun res => (res.document_id, res.rank)) =
            l.map (fun r => (r.document_id, r.bm25)) := by
        intro l
        rw [List.map_map]
        rfl
      rw [List.take_of_length_le hlen1, List.take_of_length_le hlen2, key, key]
      have e2 :
          ((rows.map (fun r =>
              { r with access_count := f r, last_opened_at := g r })).map
            (fun r => (r.document_id, r.bm25))) =
            rows.map (fun r => (r.document_id, r.bm25)) := by
        rw [List.map_map]
        rfl
      have pA := (stableSortBy_perm
        (fun a b => decide (rowScore nowJD2 a ≤ rowScore nowJD2 b))
        (rows.map (fun r =>
          { r with access_count := f r, last_opened_at := g r }))).map
        (fun r => (r.document_id, r.bm25))
      have pB := (stableSortBy_perm
        (fun a b => decide (rowScore nowJD a ≤ rowScore nowJD b)) rows).map
        (fun r => (r.document_id, r.bm25))
      rw [e2] at pA
      exact pA.trans pB.symm

/-- Witness for C10 on a one-row index (limit not reached). -/
theorem c10_witness :
    (toSearchResult (decayDemoNew (-1)) ∈
      search_documents_inner (julianOfMs 1700000000000) [decayDemoNew (-1)] "hello" 10) ∧
    (∃ row ∈ [decayDemoNew (-1)],
      (toSearchResult (decayDemoNew (-1))).document_id = row.document_id ∧
      (toSearchResult (decayDemoNew (-1))).rank = row.bm25) ∧
    ([decayDemoNew (-1)].length ≤ 10) ∧
    ((search_documents_inner (julianOfMs 1700000000500)
        ([decayDemoNew (-1)].map (fun r =>
          { r with access_count := (fun _ => none) r
                   last_opened_at := (fun _ => none) r })) "hello" 10).map
      (fun res => (res.document_id, res.rank))).Perm
        ((search_documents_inner (julianOfMs 1700000000000) [decayDemoNew (-1)] "hello"
            10).map (fun res => (res.document_id, res.rank))) :=
  ⟨by decide,
   c10_rank_is_bm25.1 (julianOfMs 1700000000000) [decayDemoNew (-1)] "hello" 10
     (toSearchResult (decayDemoNew (-1))) (by decide),
   by decide,
   c10_rank_is_bm25.2 (julianOfMs 1700000000000) (julianOfMs 1700000000500)
     [decayDemoNew (-1)] (fun _ => none) (fun _ => none) "hello" 10 (by decide)⟩

/-! ## C6: frecency ordering -/

lemma daysOld_nonneg (nowJD : ℚ) (l : Option Int) : 0 ≤ daysOld nowJD l := by
  unfold daysOld ratMax
  split
  · assumption
  · exact le_refl 0

lemma frecencyDenom_pos (d : ℚ) (hd : 0 ≤ d) : (0 : ℚ) < 1 + d * (1 / 10) := by
  have := mul_nonneg hd (by norm_num : (0 : ℚ) ≤ 1 / 10)
  linarith

lemma frecencyBonus_lt_of_days (ac : Int) (hac : 0 < ac) (l1 l2 : Option Int)
    (nowJD : ℚ) (hd : daysOld nowJD l1 < daysOld nowJD l2) :
    frecencyBonus nowJD (some ac) l2 < frecencyBonus nowJD (some ac) l1 := by
  unfold frecencyBonus
  simp only [Option.getD]
  have h1 := frecencyDenom_pos _ (daysOld_nonneg nowJD l1)
  have hlt : 1 + daysOld nowJD l1 * (1 / 10) < 1 + daysOld nowJD l2 * (1 / 10) := by
    nlinarith
  have hcast : (0 : ℚ) < (ac : ℚ) := by exact_mod_cast hac
  exact mul_lt_mul_of_pos_right (div_lt_div_of_pos_left hcast h1 hlt) (by norm_num)

lemma frecencyBonus_lt_of_count (ac1 ac2 : Int) (h : ac2 < ac1) (l : Option Int)
    (nowJD : ℚ) :
    frecencyBonus nowJD (some ac2) l < frecencyBonus nowJD (some ac1) l := by
  unfold frecencyBonus
  simp only [Option.getD]
  have hD := frecencyDenom_pos _ (daysOld_nonneg nowJD l)
  have hc : (ac2 : ℚ) < (ac1 : ℚ) := by exact_mod_cast h
  exact mul_lt_mul_of_pos_right ((div_lt_div_iff_of_pos_right hD).mpr hc) (by norm_num)

lemma search_pair_head_lt (nowJD : ℚ) (x y : FtsMatchRow) (q : String) (limit : Nat)
    (hq : ¬(sanitize_fts_query q = "")) (hl : 1 ≤ limit)
    (hlt : rowScore nowJD x < rowScore nowJD y) :
    (search_documents_inner nowJD [y, x] q limit).head? = some (toSearchResult x) := by
  obtain ⟨n, rfl⟩ : ∃ n, limit = n + 1 := ⟨limit - 1, by omega⟩
  rw [search_documents_inner, if_neg hq, sort_pair]
  simp only [decide_eq_false (not_le.mpr hlt), Bool.false_eq_true, if_false,
    List.take_succ_cons, List.map_cons, List.head?_cons]

lemma search_pair_head_le (nowJD : ℚ) (x y : FtsMatchRow) (q : String) (limit : Nat)
    (hq : ¬(sanitize_fts_query q = "")) (hl : 1 ≤ limit)
    (hle : rowScore nowJD x ≤ rowScore nowJD y) :
    (search_documents_inner nowJD [x, y] q limit).head? = some (toSearchResult x) := by
  obtain ⟨n, rfl⟩ : ∃ n, limit = n + 1 := ⟨limit - 1, by omega⟩
  rw [search_documents_inner, if_neg hq, sort_pair]
  simp only [decide_eq_true hle, if_true, List.take_succ_cons, List.map_cons,
    List.head?_cons]

lemma rowScore_lt_of_days (nowJD : ℚ) (r1 r2 : FtsMatchRow) (ac : Int)
    (hb : r1.bm25 = r2.bm25) (h1 : r1.access_count = some ac)
    (h2 : r2.access_count = some ac) (hac : 0 < ac)
    (hd : daysOld nowJD r1.last_opened_at < daysOld nowJD r2.last_opened_at) :
    rowScore nowJD r1 < rowScore nowJD r2 := by
  unfold rowScore compositeScore
  rw [hb, h1, h2]
  exact sub_lt_sub_left (frecencyBonus_lt_of_days ac hac _ _ nowJD hd) _

lemma rowScore_lt_of_count (nowJD : ℚ) (r1 r2 : FtsMatchRow) (ac1 ac2 : Int)
    (hb : r1.bm25 = r2.bm25) (hl : r1.last_opened_at = r2.last_opened_at)
    (h1 : r1.access_count = some ac1) (h2 : r2.access_count = some ac2)
    (hac : ac2 < ac1) :
    rowScore nowJD r1 < rowScore nowJD r2 := by
  unfold rowScore compositeScore
  rw [hb, h1, h2, hl]
  exact sub_lt_sub_left (frecencyBonus_lt_of_count ac1 ac2 hac _ nowJD) _

/-- **C6 (amended).** With identical lexical relevance (equal bm25):
(a) at equal *positive* access_count, the document whose computed
age-in-days (after the formula's truncation of `last_opened_at` to whole
seconds) is strictly smaller is returned first; (b) at equal
last_opened_at, the document with the larger access_count is returned
first, unconditionally; (c) a document opened now with access_count 3 is
returned before one opened 730 days earlier with access_count 100 (decay
dominates). The positivity/visible-gap provisos in (a) are forced by the
counterexample: at access_count 0, or at timestamps inside the same
second, the composite scores coincide and the engine need not put the
more recent document first. -/
theorem c6_frecency_ordering_amended :
    (∀ (nowJD : ℚ) (r1 r2 : FtsMatchRow) (q : String) (limit : Nat) (ac : Int),
        ¬(sanitize_fts_query q = "") → 1 ≤ limit →
        r1.bm25 = r2.bm25 →
        r1.access_count = some ac → r2.access_count = some ac → 0 < ac →
        daysOld nowJD r1.last_opened_at < daysOld nowJD r2.last_opened_at →
        (search_documents_inner nowJD [r2, r1] q limit).head? =
          some (toSearchResult r1)) ∧
    (∀ (nowJD : ℚ) (r1 r2 : FtsMatchRow) (q : String) (limit : Nat) (ac1 ac2 : Int),
        ¬(sanitize_fts_query q = "") → 1 ≤ limit →
        r1.bm25 = r2.bm25 → r1.last_opened_at = r2.last_opened_at →
        r1.access_count = some ac1 → r2.access_count = some ac2 → ac2 < ac1 →
        (search_documents_inner nowJD [r2, r1] q limit).head? =
          some (toSearchResult r1)) ∧
    (∀ bm : ℚ,
        (search_documents_inner (julianOfMs 1700000000000)
            [decayDemoStale bm, decayDemoNew bm] "Rust" 10).head? =
          some (toSearchResult (decayDemoNew bm))) := by
  refine ⟨?_, ?_, ?_⟩
  · intro nowJD r1 r2 q limit ac hq hl hb h1 h2 hac hd
    exact search_pair_head_lt nowJD r1 r2 q limit hq hl
      (rowScore_lt_of_days nowJD r1 r2 ac hb h1 h2 hac hd)
  · intro nowJD r1 r2 q limit ac1 ac2 hq hl hb hlast h1 h2 hac
    exact search_pair_head_lt nowJD r1 r2 q limit hq hl
      (rowScore_lt_of_count nowJD r1 r2 ac1 ac2 hb hlast h1 h2 hac)
  · intro bm
    have hq : ¬(sanitize_fts_query "Rust" = "") := by
      have : sanitize_fts_query "Rust" = "\"Rust\"*" := rfl
      rw [this]
      decide
    refine search_pair_head_lt _ _ _ _ _ hq (by norm_num) ?_
    have ha : Int.tdiv 1700000000000 1000 = 1700000000 := by decide
    have hb2 : Int.tdiv 1636928000000 1000 = 1636928000 := by decide
    simp only [rowScore, compositeScore, frecencyBonus, daysOld, julianOfMs, ratMax,
      decayDemoNew, decayDemoStale, Option.getD, ha, hb2]
    norm_num

/-- **C6 counterexample.** The claim as stated quantifies over *every*
pair of equally-relevant documents: at equal access_count 0 the frecency
bonus is zero regardless of recency, and two timestamps inside the same
second truncate to the same age, so in both cases the composite scores
are equal and search returns the *staler* document first (ties keep the
engine's row order, modelled by the stable sort). -/
theorem c6_counterexample :
    rowScore (julianOfMs 1700000000000) tieRecent =
      rowScore (julianOfMs 1700000000000) tieStale ∧
    (search_documents_inner (julianOfMs 1700000000000) [tieStale, tieRecent] "Rust"
        10).head? = some (toSearchResult tieStale) ∧
    rowScore (julianOfMs 1700000000500) secNew =
      rowScore (julianOfMs 1700000000500) secOld ∧
    (search_documents_inner (julianOfMs 1700000000500) [secOld, secNew] "Rust"
        10).head? = some (toSearchResult secOld) := by
  have hq : ¬(sanitize_fts_query "Rust" = "") := by
    have : sanitize_fts_query "Rust" = "\"Rust\"*" := rfl
    rw [this]
    decide
  have e1 : rowScore (julianOfMs 1700000000000) tieRecent =
      rowScore (julianOfMs 1700000000000) tieStale := by
    simp only [rowScore, compositeScore, frecencyBonus, tieRecent, tieStale, Option.getD]
    norm_num
  have e2 : rowScore (julianOfMs 1700000000500) secNew =
      rowScore (julianOfMs 1700000000500) secOld := by
    have ha : Int.tdiv 1700000000500 1000 = 1700000000 := by decide
    have hb : Int.tdiv 1700000000400 1000 = 1700000000 := by decide
    simp only [rowScore, compositeScore, frecencyBonus, daysOld, julianOfMs, ratMax,
      secNew, secOld, Option.getD, ha, hb]
  exact ⟨e1,
    search_pair_head_le _ tieStale tieRecent _ 10 hq (by norm_num) (le_of_eq e1.symm),
    e2,
    search_pair_head_le _ secOld secNew _ 10 hq (by norm_num) (le_of_eq e2.symm)⟩

/-- Witness for C6 (amended) at concrete documents: recency wins at
equal positive access_count across a visible gap; frequency wins at
equal recency; decay dominates at the stated concrete inputs. -/
theorem c6_witness :
    (¬(sanitize_fts_query "Rust" = "")) ∧
    frecRecent.access_count = some 1 ∧ frecStale.access_count = some 1 ∧
    daysOld (julianOfMs 1700000000000) frecRecent.last_opened_at <
      daysOld (julianOfMs 1700000000000) frecStale.last_opened_at ∧
    (search_documents_inner (julianOfMs 1700000000000) [frecStale, frecRecent] "Rust"
        10).head? = some (toSearchResult frecRecent) ∧
    frecFreq.access_count = some 50 ∧ frecRare.access_count = some 1 ∧
    (search_documents_inner (julianOfMs 1700000000000) [frecRare, frecFreq] "Rust"
        10).head? = some (toSearchResult frecFreq) ∧
    (search_documents_inner (julianOfMs 1700000000000)
        [decayDemoStale (-1), decayDemoNew (-1)] "Rust" 10).head? =
      some (toSearchResult (decayDemoNew (-1))) := by
  have hq : ¬(sanitize_fts_query "Rust" = "") := by
    have : sanitize_fts_query "Rust" = "\"Rust\"*" := rfl
    rw [this]
    decide
  have hd : daysOld (julianOfMs 1700000000000) frecRecent.last_opened_at <
      daysOld (julianOfMs 1700000000000) frecStale.last_opened_at := by
    have ha : Int.tdiv 1700000000000 1000 = 1700000000 := by decide
    have hb : Int.tdiv 1668464000000 1000 = 1668464000 := by decide
    simp only [daysOld, julianOfMs, ratMax, frecRecent, frecStale, Option.getD, ha, hb]
    norm_num
  exact ⟨hq, rfl, rfl, hd,
    c6_frecency_ordering_amended.1 (julianOfMs 1700000000000) frecRecent frecStale
      "Rust" 10 1 hq (by norm_num) rfl rfl rfl (by norm_num) hd,
    rfl, rfl,
    c6_frecency_ordering_amended.2.1 (julianOfMs 1700000000000) frecFreq frecRare
      "Rust" 10 50 1 hq (by norm_num) rfl rfl rfl rfl (by norm_num),
    c6_frecency_ordering_amended.2.2 (-1)⟩

/-! ## C3: the backfill gate -/

/-- **C3 counterexample.** The claim quantifies over every state
reachable after a backfill run has completed; but a run that imports
zero records (here: over an empty directory) writes no sentinel, so a
subsequent startup runs the backfill again and imports whatever log
files have appeared — here one record, changing the corrections table. -/
theorem c3_counterexample :
    backfill_once_step allOk [] (some []) = ([], 0) ∧
    (backfill_once_step allOk [] (some [demoLogFile])).2 = 1 ∧
    ((backfill_once_step allOk [] (some [demoLogFile])).1).length = 2 :=
  ⟨rfl, rfl, rfl⟩

/-- **C3 (amended).** The gate is the sentinel, not mere completion of a
run: whenever the sentinel row is present the backfill step returns the
table unchanged with zero imported; and a run that imports at least one
record into a table free of the reserved marker ids appends the sentinel,
so every later startup is a no-op. -/
theorem c3_backfill_gate_amended :
    (∀ (execOk : CorrectionRow → Bool) (db : List CorrectionRow)
        (dir : Option (List LogFile)),
        hasBackfillSentinel db = true → backfill_once_step execOk db dir = (db, 0)) ∧
    (∀ (execOk : CorrectionRow → Bool) (db db2 : List CorrectionRow)
        (dir : Option (List LogFile)) (n : Nat),
        hasBackfillSentinel db = false →
        backfill_corrections_from_dir execOk db dir = (db2, n) → 0 < n →
        (∀ r ∈ db2, ¬(r.id = "__backfill_marker__") ∧
            ¬(r.highlight_id = "__backfill_marker__")) →
        backfill_once_step execOk db dir = (db2 ++ [sentinelRow], n) ∧
        hasBackfillSentinel (db2 ++ [sentinelRow]) = true) := by
  constructor
  · intro execOk db dir h
    simp [backfill_once_step, h]
  · intro execOk db db2 dir n hs hback hn hclean
    have hnoany : db2.any (fun r => r.id == "__backfill_marker__" ||
        r.highlight_id == "__backfill_marker__") = false := by
      rw [List.any_eq_false]
      intro r hr
      simp only [Bool.or_eq_true, beq_iff_eq, not_or]
      exact ⟨(hclean r hr).1, (hclean r hr).2⟩
    constructor
    · simp [backfill_once_step, hs, hback, hn, insertOrIgnoreSentinel, hnoany]
    · simp [hasBackfillSentinel, List.any_append, sentinelRow]

/-- Witness for C3 (amended): the gate at a sentinel-holding table, and
the sentinel write after a run importing one record into an empty table. -/
theorem c3_witness :
    hasBackfillSentinel [sentinelRow] = true ∧
    backfill_once_step allOk [sentinelRow] (some [demoLogFile]) = ([sentinelRow], 0) ∧
    hasBackfillSentinel ([] : List CorrectionRow) = false ∧
    0 < (backfill_corrections_from_dir allOk [] (some [demoLogFile])).2 ∧
    backfill_once_step allOk [] (some [demoLogFile]) =
      ((backfill_corrections_from_dir allOk [] (some [demoLogFile])).1 ++ [sentinelRow],
        (backfill_corrections_from_dir allOk [] (some [demoLogFile])).2) ∧
    hasBackfillSentinel
        ((backfill_corrections_from_dir allOk [] (some [demoLogFile])).1 ++
          [sentinelRow]) = true :=
  ⟨rfl,
   c3_backfill_gate_amended.1 allOk [sentinelRow] (some [demoLogFile]) rfl,
   rfl,
   by decide,
   (c3_backfill_gate_amended.2 allOk []
      (backfill_corrections_from_dir allOk [] (some [demoLogFile])).1
      (some [demoLogFile])
      (backfill_corrections_from_dir allOk [] (some [demoLogFile])).2
      rfl rfl (by decide) (by decide)).1,
   (c3_backfill_gate_amended.2 allOk []
      (backfill_corrections_from_dir allOk [] (some [demoLogFile])).1
      (some [demoLogFile])
      (backfill_corrections_from_dir allOk [] (some [demoLogFile])).2
      rfl rfl (by decide) (by decide)).2⟩

/-! ## C4: chronologically later log files win on upsert -/

lemma backfill_upsert_filter_ne (db : List CorrectionRow) (row : CorrectionRow)
    (hid : String) (hne : ¬(row.highlight_id = hid)) :
    (backfill_upsert db row).filter (fun r => r.highlight_id == hid) =
      db.filter (fun r => r.highlight_id == hid) := by
  unfold backfill_upsert
  split
  · refine filter_map_if_disjoint (fun r => r.highlight_id == hid)
      (fun r => r.highlight_id == row.highlight_id)
      (fun r =>
        { r with
          original_text := row.original_text
          notes_json := row.notes_json
          document_title := row.document_title
          highlight_color := row.highlight_color
          updated_at := row.updated_at })
      (fun a => rfl) ?_ db
    intro a ha
    rw [beq_eq_false_iff_ne]
    intro h
    exact hne ((beq_iff_eq.mp ha).symm.trans h)
  · rw [List.filter_append]
    simp [beq_iff_eq, hne]

lemma backfill_upsert_filter_eq_self (db : List CorrectionRow) (row : CorrectionRow) :
    (backfill_upsert db row).filter (fun r => r.highlight_id == row.highlight_id) ≠ [] ∧
    ∀ r ∈ (backfill_upsert db row).filter
        (fun r => r.highlight_id == row.highlight_id),
      mutableOf r = mutableOf row := by
  unfold backfill_upsert
  split
  · rename_i hany
    rw [filter_map_if_eq (fun r => r.highlight_id == row.highlight_id)
      (fun r =>
        { r with
          original_text := row.original_text
          notes_json := row.notes_json
          document_title := row.document_title
          highlight_color := row.highlight_color
          updated_at := row.updated_at })
      (fun a => rfl) db]
    obtain ⟨x, hx, hpx⟩ := List.any_eq_true.mp hany
    constructor
    · intro hnil
      rw [List.map_eq_nil_iff] at hnil
      exact (List.ne_nil_of_mem (List.mem_filter.mpr ⟨hx, hpx⟩)) hnil
    · intro r hr
      obtain ⟨r0, _, rfl⟩ := List.mem_map.mp hr
      rfl
  · rename_i hany
    have hempty : db.filter (fun r => r.highlight_id == row.highlight_id) = [] := by
      rw [List.filter_eq_nil_iff]
      intro a ha hp
      exact hany (List.any_eq_true.mpr ⟨a, ha, hp⟩)
    rw [List.filter_append, hempty, List.nil_append]
    simp

lemma processLine_filter_invariant (execOk : CorrectionRow → Bool) (hid : String)
    (st : BackfillState) (ln : LogLine) (h : lineHas hid ln = false) :
    ((processLine execOk st ln).db).filter (fun r => r.highlight_id == hid) =
      st.db.filter (fun r => r.highlight_id == hid) := by
  cases ln with
  | readFail => rfl
  | empty => rfl
  | parseFail => rfl
  | json v =>
    cases hv : (v.get "highlight_id").asStr with
    | none => simp [processLine, hv]
    | some hid2 =>
      have hne : ¬(hid2 = hid) := by
        rw [lineHas, hv] at h
        simpa using h
      simp only [processLine, hv]
      split
      · exact backfill_upsert_filter_ne st.db _ hid hne
      · rfl

lemma processLines_filter_invariant (execOk : CorrectionRow → Bool) (hid : String)
    (st : BackfillState) (lines : List LogLine)
    (h : ∀ ln ∈ lines, lineHas hid ln = false) :
    ((lines.foldl (processLine execOk) st).db).filter
        (fun r => r.highlight_id == hid) =
      st.db.filter (fun r => r.highlight_id == hid) := by
  induction lines generalizing st with
  | nil => rfl
  | cons ln rest ih =>
    rw [List.foldl_cons,
      ih (processLine execOk st ln) (fun l hl => h l (List.mem_cons_of_mem _ hl)),
      processLine_filter_invariant execOk hid st ln (h ln (List.mem_cons_self _ _))]

lemma processLine_json_filter (hid : String) (st : BackfillState) (v : Json)
    (hv : (v.get "highlight_id").asStr = some hid) :
    ((processLine allOk st (.json v)).db).filter (fun r => r.highlight_id == hid) ≠ [] ∧
    ∀ r ∈ ((processLine allOk st (.json v)).db).filter
        (fun r => r.highlight_id == hid),
      mutableOf r = mutableFromJson v := by
  have hrow : (rowFromJson (freshUuid st.next_id) v hid).highlight_id = hid := rfl
  have hmut : mutableOf (rowFromJson (freshUuid st.next_id) v hid) = mutableFromJson v := rfl
  simp only [processLine, hv, allOk, if_true]
  have := backfill_upsert_filter_eq_self st.db (rowFromJson (freshUuid st.next_id) v hid)
  rw [hrow, hmut] at this
  exact this

lemma processLines_last_wins (hid : String) (st : BackfillState)
    (pre post : List LogLine) (v : Json)
    (hv : (v.get "highlight_id").asStr = some hid)
    (hpost : ∀ ln ∈ post, lineHas hid ln = false) :
    (((pre ++ LogLine.json v :: post).foldl (processLine allOk) st).db).filter
        (fun r => r.highlight_id == hid) ≠ [] ∧
    ∀ r ∈ (((pre ++ LogLine.json v :: post).foldl (processLine allOk) st).db).filter
        (fun r => r.highlight_id == hid),
      mutableOf r = mutableFromJson v := by
  rw [List.foldl_append, List.foldl_cons]
  rw [processLines_filter_invariant allOk hid _ post hpost]
  exact processLine_json_filter hid (pre.foldl (processLine allOk) st) v hv

/-- **C4.** Log files are processed in ascending filename order
(chronological for the date-prefixed names), so when the later-sorted
file contains a record for a highlight id — with no further record for
that id after it in the file — that record determines the final stored
values of the row's mutable fields (original_text, notes_json,
document_title, highlight_color, updated_at), regardless of the earlier
file's content and of the order the directory listed the files. -/
theorem c4_later_file_wins :
    ∀ (f1 f2 : LogFile) (db : List CorrectionRow) (hid : String) (v : Json)
      (pre post : List LogLine),
      strLeB f2.name f1.name = false →
      hasJsonlExt f1.name = true → hasJsonlExt f2.name = true →
      f2.content = some (pre ++ LogLine.json v :: post) →
      (v.get "highlight_id").asStr = some hid →
      (∀ ln ∈ post, lineHas hid ln = false) →
      ((backfill_corrections_from_dir allOk db (some [f2, f1])).1.filter
          (fun r => r.highlight_id == hid) ≠ [] ∧
       ∀ r ∈ (backfill_corrections_from_dir allOk db (some [f2, f1])).1.filter
          (fun r => r.highlight_id == hid),
         mutableOf r = mutableFromJson v) := by
  intro f1 f2 db hid v pre post hlt hj1 hj2 hc2 hv hpost
  have hsort : stableSortBy (fun a b => strLeB a.name b.name)
      ([f2, f1].filter (fun f => hasJsonlExt f.name)) = [f1, f2] := by
    rw [show ([f2, f1].filter (fun f => hasJsonlExt f.name)) = [f2, f1] by
      simp [List.filter_cons, hj1, hj2]]
    rw [sort_pair]
    simp [hlt]
  simp only [backfill_corrections_from_dir, hsort, List.foldl_cons, List.foldl_nil]
  rw [show processFile allOk (processFile allOk
        { db := db, imported := 0, next_id := 0 } f1) f2 =
      (pre ++ LogLine.json v :: post).foldl (processLine allOk)
        (processFile allOk { db := db, imported := 0, next_id := 0 } f1) by
    rw [processFile, hc2]]
  exact processLines_last_wins hid _ pre post v hv hpost

/-- Witness for C4: two concrete one-record files for the same highlight
given to the importer in reversed order; the later-named file's content
determines the stored mutable fields. -/
theorem c4_witness :
    strLeB demoLogFile2.name demoLogFile.name = false ∧
    hasJsonlExt demoLogFile.name = true ∧ hasJsonlExt demoLogFile2.name = true ∧
    demoLogFile2.content = some ([] ++ LogLine.json demoJson2 :: []) ∧
    (Json.get demoJson2 "highlight_id").asStr = some "h1" ∧
    ((backfill_corrections_from_dir allOk [] (some [demoLogFile2, demoLogFile])).1.filter
        (fun r => r.highlight_id == "h1") ≠ [] ∧
     ∀ r ∈ (backfill_corrections_from_dir allOk []
          (some [demoLogFile2, demoLogFile])).1.filter
        (fun r => r.highlight_id == "h1"),
       mutableOf r = mutableFromJson demoJson2) :=
  ⟨rfl, rfl, rfl, rfl, rfl,
   c4_later_file_wins demoLogFile demoLogFile2 [] "h1" demoJson2 [] []
     rfl rfl rfl rfl rfl (by intro ln h; cases h)⟩

end Margin
